import Mathlib

/-!
Verification of the gio-shadcn utility-class parser.

A shallow embedding of the `utils` package of gio-shadcn (utils/styles.go):
the Tailwind-like utility-class parser `ParseClasses` together with its
helpers `ClassNames`, `parseClass`, `parseSpacing`, `parseRadius`,
`parseColor` and `parseOpacity`.

Modelling conventions:
* Go strings are Lean `String`s.  All prefixes tested by the parser are
  ASCII, so the Go byte-indexed slicing `class[n:]` coincides with dropping
  `n` characters whenever the preceding prefix check succeeded; slicing is
  modelled by `strDrop` and `strings.HasPrefix` by `hasPre`.
* `unit.Dp` (a `float32` in Gio) only ever holds the integer constants of
  the lookup tables here, so it is modelled as `Int` (keeping
  non-negativity a meaningful statement).
* The `float32` opacity is modelled as `Rat`; the decimal literals of the
  source are taken exactly.
* `color.NRGBA` is four 8-bit components, modelled as four `Nat`s.
* `strings.Fields` (split around runs of whitespace, dropping empty
  fields) is modelled by `fields` below via the chunk splitter `splitOnWs`.
* The Go zero-value initialisation of `StyleUtility` with Opacity 1.0 is
  `initStyle`.

For the totality analysis there is a second, "checked" copy of the parser
(`parseClassChk`, `ParseClassesChk`) in which every slicing step
`class[n:]` is modelled by the partial `goSlice`, which returns `none`
exactly when Go would panic (index out of range).  The theorem
`parseClassChk_eq` shows the checked parser never returns `none`.
-/

namespace GioShadcn

/-- Model of Go `color.NRGBA`: four 8-bit colour components. -/
structure NRGBA where
  R : Nat
  G : Nat
  B : Nat
  A : Nat
deriving DecidableEq, Repr

/-- Model of Gio `layout.Inset` (fields in source order Top, Right, Bottom, Left). -/
structure Inset where
  Top : Int
  Right : Int
  Bottom : Int
  Left : Int
deriving DecidableEq, Repr

/-- Model of Gio `layout.UniformInset`. -/
def UniformInset (d : Int) : Inset := ⟨d, d, d, d⟩

/-- `BorderStyle` from utils/styles.go. -/
structure BorderStyle where
  Color : NRGBA
  Width : Int
deriving DecidableEq, Repr

/-- `StyleUtility` from utils/styles.go (field for field). -/
structure StyleUtility where
  Padding : Inset
  Margin : Inset
  Background : NRGBA
  Border : BorderStyle
  Radius : Int
  Width : Int
  Height : Int
  Opacity : Rat
deriving DecidableEq, Repr

/-- Character-list prefix check (leading-byte comparison, as in the Go
function `strings.HasPrefix`). -/
def listPre : List Char → List Char → Bool
  | [], _ => true
  | _ :: _, [] => false
  | a :: as, b :: bs => a == b && listPre as bs

/-- Model of Go `strings.HasPrefix s pre`. -/
def hasPre (s pre : String) : Bool :=
  listPre pre.data s.data

/-- Model of the (always guarded) Go slice `s[n:]`. -/
def strDrop (s : String) (n : Nat) : String :=
  ⟨s.data.drop n⟩

/-- Model of the Go slice `s[n:]` with its panic made explicit:
`none` exactly when `n` is out of range. -/
def goSlice (s : String) (n : Nat) : Option String :=
  if n ≤ s.data.length then some (strDrop s n) else none

/-- Splits a character list at every whitespace character (chunks keep
order; separators are dropped, empty chunks are kept).  Together with the
empty-chunk filter in `fields` this models Go `strings.Fields`. -/
def splitOnWs : List Char → List (List Char)
  | [] => [[]]
  | c :: rest =>
    if c.isWhitespace then [] :: splitOnWs rest
    else
      match splitOnWs rest with
      | [] => [[c]]
      | chunk :: chunks => (c :: chunk) :: chunks

/-- Model of Go `strings.Fields`: the maximal non-empty chunks between
whitespace characters. -/
def fields (s : String) : List String :=
  ((splitOnWs s.data).filter (fun l => l ≠ [])).map String.mk

/-- `ClassNames` from utils/styles.go: drop empty strings, join with a space. -/
def ClassNames (classes : List String) : String :=
  String.intercalate " " (classes.filter (fun c => c ≠ ""))

/-- `parseSpacing` from utils/styles.go: the spacing lookup table. -/
def parseSpacing : String → Option Int
  | "0" => some 0
  | "1" => some 4
  | "2" => some 8
  | "3" => some 12
  | "4" => some 16
  | "5" => some 20
  | "6" => some 24
  | "8" => some 32
  | "10" => some 40
  | "12" => some 48
  | "16" => some 64
  | "20" => some 80
  | "24" => some 96
  | "32" => some 128
  | "40" => some 160
  | "48" => some 192
  | "56" => some 224
  | "64" => some 256
  | _ => none

/-- `parseRadius` from utils/styles.go: the radius lookup table. -/
def parseRadius : String → Option Int
  | "none" => some 0
  | "sm" => some 2
  | "" => some 4
  | "md" => some 6
  | "lg" => some 8
  | "xl" => some 12
  | "2xl" => some 16
  | "3xl" => some 24
  | "full" => some 9999
  | _ => none

/-- `parseColor` from utils/styles.go: the named colour table. -/
def parseColor : String → Option NRGBA
  | "transparent" => some ⟨0, 0, 0, 0⟩
  | "black" => some ⟨0, 0, 0, 255⟩
  | "white" => some ⟨255, 255, 255, 255⟩
  | "red" => some ⟨239, 68, 68, 255⟩
  | "green" => some ⟨34, 197, 94, 255⟩
  | "blue" => some ⟨59, 130, 246, 255⟩
  | "yellow" => some ⟨251, 191, 36, 255⟩
  | "purple" => some ⟨147, 51, 234, 255⟩
  | "pink" => some ⟨236, 72, 153, 255⟩
  | "indigo" => some ⟨99, 102, 241, 255⟩
  | "gray" => some ⟨156, 163, 175, 255⟩
  | _ => none

/-- `parseOpacity` from utils/styles.go: the opacity lookup table. -/
def parseOpacity : String → Option Rat
  | "0" => some 0
  | "5" => some 0.05
  | "10" => some 0.1
  | "20" => some 0.2
  | "25" => some 0.25
  | "30" => some 0.3
  | "40" => some 0.4
  | "50" => some 0.5
  | "60" => some 0.6
  | "70" => some 0.7
  | "75" => some 0.75
  | "80" => some 0.8
  | "90" => some 0.9
  | "95" => some 0.95
  | "100" => some 1.0
  | _ => none

/-- `parseClass` from utils/styles.go: the prefix-dispatch switch, with the
cases in exactly the source order (the `&style` out-parameter becomes
explicit state passing). -/
def parseClass (c : String) (st : StyleUtility) : StyleUtility :=
  if hasPre c "p-" then
    match parseSpacing (strDrop c 2) with
    | some sp => { st with Padding := UniformInset sp }
    | none => st
  else if hasPre c "px-" then
    match parseSpacing (strDrop c 3) with
    | some sp => { st with Padding := { st.Padding with Left := sp, Right := sp } }
    | none => st
  else if hasPre c "py-" then
    match parseSpacing (strDrop c 3) with
    | some sp => { st with Padding := { st.Padding with Top := sp, Bottom := sp } }
    | none => st
  else if hasPre c "pt-" then
    match parseSpacing (strDrop c 3) with
    | some sp => { st with Padding := { st.Padding with Top := sp } }
    | none => st
  else if hasPre c "pr-" then
    match parseSpacing (strDrop c 3) with
    | some sp => { st with Padding := { st.Padding with Right := sp } }
    | none => st
  else if hasPre c "pb-" then
    match parseSpacing (strDrop c 3) with
    | some sp => { st with Padding := { st.Padding with Bottom := sp } }
    | none => st
  else if hasPre c "pl-" then
    match parseSpacing (strDrop c 3) with
    | some sp => { st with Padding := { st.Padding with Left := sp } }
    | none => st
  else if hasPre c "m-" then
    match parseSpacing (strDrop c 2) with
    | some sp => { st with Margin := UniformInset sp }
    | none => st
  else if hasPre c "mx-" then
    match parseSpacing (strDrop c 3) with
    | some sp => { st with Margin := { st.Margin with Left := sp, Right := sp } }
    | none => st
  else if hasPre c "my-" then
    match parseSpacing (strDrop c 3) with
    | some sp => { st with Margin := { st.Margin with Top := sp, Bottom := sp } }
    | none => st
  else if hasPre c "rounded-" then
    match parseRadius (strDrop c 8) with
    | some r => { st with Radius := r }
    | none => st
  else if c = "rounded" then
    { st with Radius := 4 }
  else if hasPre c "bg-" then
    match parseColor (strDrop c 3) with
    | some col => { st with Background := col }
    | none => st
  else if hasPre c "border-" then
    match parseColor (strDrop c 7) with
    | some col => { st with Border := { st.Border with Color := col } }
    | none => st
  else if c = "border" then
    { st with Border := { st.Border with Width := 1 } }
  else if hasPre c "opacity-" then
    match parseOpacity (strDrop c 8) with
    | some o => { st with Opacity := o }
    | none => st
  else
    st

/-- The initial value of the accumulator: the Go zero value of
`StyleUtility` with Opacity set to 1.0. -/
def initStyle : StyleUtility :=
  { Padding := ⟨0, 0, 0, 0⟩
    Margin := ⟨0, 0, 0, 0⟩
    Background := ⟨0, 0, 0, 0⟩
    Border := ⟨⟨0, 0, 0, 0⟩, 0⟩
    Radius := 0
    Width := 0
    Height := 0
    Opacity := 1 }

/-- The `for _, class := range classList` loop of `ParseClasses` as a fold. -/
def parseClassList (l : List String) (st : StyleUtility) : StyleUtility :=
  l.foldl (fun acc c => parseClass c acc) st

/-- `ParseClasses` from utils/styles.go (variadic argument as a list). -/
def ParseClasses (classes : List String) : StyleUtility :=
  parseClassList (fields (ClassNames classes)) initStyle

/-- `parseClass` again, but with every slicing step `class[n:]` modelled by
the partial `goSlice`, so that an out-of-range slice (a Go panic) surfaces
as `none` instead of being silently truncated.  Everything else is
identical to `parseClass`. -/
def parseClassChk (c : String) (st : StyleUtility) : Option StyleUtility :=
  if hasPre c "p-" then
    (goSlice c 2).map fun rest =>
      match parseSpacing rest with
      | some sp => { st with Padding := UniformInset sp }
      | none => st
  else if hasPre c "px-" then
    (goSlice c 3).map fun rest =>
      match parseSpacing rest with
      | some sp => { st with Padding := { st.Padding with Left := sp, Right := sp } }
      | none => st
  else if hasPre c "py-" then
    (goSlice c 3).map fun rest =>
      match parseSpacing rest with
      | some sp => { st with Padding := { st.Padding with Top := sp, Bottom := sp } }
      | none => st
  else if hasPre c "pt-" then
    (goSlice c 3).map fun rest =>
      match parseSpacing rest with
      | some sp => { st with Padding := { st.Padding with Top := sp } }
      | none => st
  else if hasPre c "pr-" then
    (goSlice c 3).map fun rest =>
      match parseSpacing rest with
      | some sp => { st with Padding := { st.Padding with Right := sp } }
      | none => st
  else if hasPre c "pb-" then
    (goSlice c 3).map fun rest =>
      match parseSpacing rest with
      | some sp => { st with Padding := { st.Padding with Bottom := sp } }
      | none => st
  else if hasPre c "pl-" then
    (goSlice c 3).map fun rest =>
      match parseSpacing rest with
      | some sp => { st with Padding := { st.Padding with Left := sp } }
      | none => st
  else if hasPre c "m-" then
    (goSlice c 2).map fun rest =>
      match parseSpacing rest with
      | some sp => { st with Margin := UniformInset sp }
      | none => st
  else if hasPre c "mx-" then
    (goSlice c 3).map fun rest =>
      match parseSpacing rest with
      | some sp => { st with Margin := { st.Margin with Left := sp, Right := sp } }
      | none => st
  else if hasPre c "my-" then
    (goSlice c 3).map fun rest =>
      match parseSpacing rest with
      | some sp => { st with Margin := { st.Margin with Top := sp, Bottom := sp } }
      | none => st
  else if hasPre c "rounded-" then
    (goSlice c 8).map fun rest =>
      match parseRadius rest with
      | some r => { st with Radius := r }
      | none => st
  else if c = "rounded" then
    some { st with Radius := 4 }
  else if hasPre c "bg-" then
    (goSlice c 3).map fun rest =>
      match parseColor rest with
      | some col => { st with Background := col }
      | none => st
  else if hasPre c "border-" then
    (goSlice c 7).map fun rest =>
      match parseColor rest with
      | some col => { st with Border := { st.Border with Color := col } }
      | none => st
  else if c = "border" then
    some { st with Border := { st.Border with Width := 1 } }
  else if hasPre c "opacity-" then
    (goSlice c 8).map fun rest =>
      match parseOpacity rest with
      | some o => { st with Opacity := o }
      | none => st
  else
    some st

/-- The parsing loop over the checked parser, propagating a panic. -/
def parseClassListChk : List String → StyleUtility → Option StyleUtility
  | [], st => some st
  | c :: rest, st =>
    match parseClassChk c st with
    | none => none
    | some st2 => parseClassListChk rest st2

/-- `ParseClasses` over the checked parser. -/
def ParseClassesChk (classes : List String) : Option StyleUtility :=
  parseClassListChk (fields (ClassNames classes)) initStyle

/-- The ranges promised by the data model: non-negative insets, radius and
border width, opacity within the unit interval. -/
def StyleInRange (st : StyleUtility) : Prop :=
  0 ≤ st.Padding.Top ∧ 0 ≤ st.Padding.Right ∧ 0 ≤ st.Padding.Bottom ∧ 0 ≤ st.Padding.Left ∧
  0 ≤ st.Margin.Top ∧ 0 ≤ st.Margin.Right ∧ 0 ≤ st.Margin.Bottom ∧ 0 ≤ st.Margin.Left ∧
  0 ≤ st.Radius ∧ 0 ≤ st.Border.Width ∧ 0 ≤ st.Opacity ∧ st.Opacity ≤ 1

/-- A token that carries one of the fourteen recognized prefixes of
`parseClass` but whose suffix is absent from the corresponding lookup
table. -/
def unknownSuffix (t : String) : Prop :=
  (∃ s, t = "p-" ++ s ∧ parseSpacing s = none) ∨
  (∃ s, t = "px-" ++ s ∧ parseSpacing s = none) ∨
  (∃ s, t = "py-" ++ s ∧ parseSpacing s = none) ∨
  (∃ s, t = "pt-" ++ s ∧ parseSpacing s = none) ∨
  (∃ s, t = "pr-" ++ s ∧ parseSpacing s = none) ∨
  (∃ s, t = "pb-" ++ s ∧ parseSpacing s = none) ∨
  (∃ s, t = "pl-" ++ s ∧ parseSpacing s = none) ∨
  (∃ s, t = "m-" ++ s ∧ parseSpacing s = none) ∨
  (∃ s, t = "mx-" ++ s ∧ parseSpacing s = none) ∨
  (∃ s, t = "my-" ++ s ∧ parseSpacing s = none) ∨
  (∃ s, t = "rounded-" ++ s ∧ parseRadius s = none) ∨
  (∃ s, t = "bg-" ++ s ∧ parseColor s = none) ∨
  (∃ s, t = "border-" ++ s ∧ parseColor s = none) ∨
  (∃ s, t = "opacity-" ++ s ∧ parseOpacity s = none)

/-- Two tokens of the same prefix family, each carrying a suffix present
in the lookup table of that family (one disjunct per recognized prefix of
`parseClass`). -/
def sameFamilyKnown (t1 t2 : String) : Prop :=
  (∃ s1 s2 v1 v2, t1 = "p-" ++ s1 ∧ t2 = "p-" ++ s2 ∧
    parseSpacing s1 = some v1 ∧ parseSpacing s2 = some v2) ∨
  (∃ s1 s2 v1 v2, t1 = "px-" ++ s1 ∧ t2 = "px-" ++ s2 ∧
    parseSpacing s1 = some v1 ∧ parseSpacing s2 = some v2) ∨
  (∃ s1 s2 v1 v2, t1 = "py-" ++ s1 ∧ t2 = "py-" ++ s2 ∧
    parseSpacing s1 = some v1 ∧ parseSpacing s2 = some v2) ∨
  (∃ s1 s2 v1 v2, t1 = "pt-" ++ s1 ∧ t2 = "pt-" ++ s2 ∧
    parseSpacing s1 = some v1 ∧ parseSpacing s2 = some v2) ∨
  (∃ s1 s2 v1 v2, t1 = "pr-" ++ s1 ∧ t2 = "pr-" ++ s2 ∧
    parseSpacing s1 = some v1 ∧ parseSpacing s2 = some v2) ∨
  (∃ s1 s2 v1 v2, t1 = "pb-" ++ s1 ∧ t2 = "pb-" ++ s2 ∧
    parseSpacing s1 = some v1 ∧ parseSpacing s2 = some v2) ∨
  (∃ s1 s2 v1 v2, t1 = "pl-" ++ s1 ∧ t2 = "pl-" ++ s2 ∧
    parseSpacing s1 = some v1 ∧ parseSpacing s2 = some v2) ∨
  (∃ s1 s2 v1 v2, t1 = "m-" ++ s1 ∧ t2 = "m-" ++ s2 ∧
    parseSpacing s1 = some v1 ∧ parseSpacing s2 = some v2) ∨
  (∃ s1 s2 v1 v2, t1 = "mx-" ++ s1 ∧ t2 = "mx-" ++ s2 ∧
    parseSpacing s1 = some v1 ∧ parseSpacing s2 = some v2) ∨
  (∃ s1 s2 v1 v2, t1 = "my-" ++ s1 ∧ t2 = "my-" ++ s2 ∧
    parseSpacing s1 = some v1 ∧ parseSpacing s2 = some v2) ∨
  (∃ s1 s2 v1 v2, t1 = "rounded-" ++ s1 ∧ t2 = "rounded-" ++ s2 ∧
    parseRadius s1 = some v1 ∧ parseRadius s2 = some v2) ∨
  (∃ s1 s2 v1 v2, t1 = "bg-" ++ s1 ∧ t2 = "bg-" ++ s2 ∧
    parseColor s1 = some v1 ∧ parseColor s2 = some v2) ∨
  (∃ s1 s2 v1 v2, t1 = "border-" ++ s1 ∧ t2 = "border-" ++ s2 ∧
    parseColor s1 = some v1 ∧ parseColor s2 = some v2) ∨
  (∃ s1 s2 v1 v2, t1 = "opacity-" ++ s1 ∧ t2 = "opacity-" ++ s2 ∧
    parseOpacity s1 = some v1 ∧ parseOpacity s2 = some v2)

/-! Basic facts about the string model. -/

theorem listPre_length {l1 l2 : List Char} (h : listPre l1 l2 = true) :
    l1.length ≤ l2.length := by
  induction l1 generalizing l2 with
  | nil => simp
  | cons a as ih =>
    cases l2 with
    | nil => simp [listPre] at h
    | cons b bs =>
      simp only [listPre, Bool.and_eq_true] at h
      simpa using ih h.2

theorem hasPre_len {c pre : String} {n : Nat} (h : hasPre c pre = true)
    (hn : pre.data.length = n) : n ≤ c.data.length := by
  subst hn
  exact listPre_length h

theorem goSlice_eq {c : String} {n : Nat} (h : n ≤ c.data.length) :
    goSlice c n = some (strDrop c n) := by
  unfold goSlice
  rw [if_pos h]

/-! Evaluation of each dispatch branch of `parseClass` on a token built
from its recognized prefix and an arbitrary suffix.  Each equation holds
by computation: the earlier guards of the switch reduce to `false` on the
given leading characters, and structure eta turns the slice of the
appended token back into the suffix. -/

theorem parseClass_p (s : String) (st : StyleUtility) :
    parseClass ("p-" ++ s) st =
      (match parseSpacing s with
       | some sp => { st with Padding := UniformInset sp }
       | none => st) := rfl

theorem parseClass_px (s : String) (st : StyleUtility) :
    parseClass ("px-" ++ s) st =
      (match parseSpacing s with
       | some sp => { st with Padding := { st.Padding with Left := sp, Right := sp } }
       | none => st) := rfl

theorem parseClass_py (s : String) (st : StyleUtility) :
    parseClass ("py-" ++ s) st =
      (match parseSpacing s with
       | some sp => { st with Padding := { st.Padding with Top := sp, Bottom := sp } }
       | none => st) := rfl

theorem parseClass_pt (s : String) (st : StyleUtility) :
    parseClass ("pt-" ++ s) st =
      (match parseSpacing s with
       | some sp => { st with Padding := { st.Padding with Top := sp } }
       | none => st) := rfl

theorem parseClass_pr (s : String) (st : StyleUtility) :
    parseClass ("pr-" ++ s) st =
      (match parseSpacing s with
       | some sp => { st with Padding := { st.Padding with Right := sp } }
       | none => st) := rfl

theorem parseClass_pb (s : String) (st : StyleUtility) :
    parseClass ("pb-" ++ s) st =
      (match parseSpacing s with
       | some sp => { st with Padding := { st.Padding with Bottom := sp } }
       | none => st) := rfl

theorem parseClass_pl (s : String) (st : StyleUtility) :
    parseClass ("pl-" ++ s) st =
      (match parseSpacing s with
       | some sp => { st with Padding := { st.Padding with Left := sp } }
       | none => st) := rfl

theorem parseClass_m (s : String) (st : StyleUtility) :
    parseClass ("m-" ++ s) st =
      (match parseSpacing s with
       | some sp => { st with Margin := UniformInset sp }
       | none => st) := rfl

theorem parseClass_mx (s : String) (st : StyleUtility) :
    parseClass ("mx-" ++ s) st =
      (match parseSpacing s with
       | some sp => { st with Margin := { st.Margin with Left := sp, Right := sp } }
       | none => st) := rfl

theorem parseClass_my (s : String) (st : StyleUtility) :
    parseClass ("my-" ++ s) st =
      (match parseSpacing s with
       | some sp => { st with Margin := { st.Margin with Top := sp, Bottom := sp } }
       | none => st) := rfl

theorem parseClass_rounded (s : String) (st : StyleUtility) :
    parseClass ("rounded-" ++ s) st =
      (match parseRadius s with
       | some r => { st with Radius := r }
       | none => st) := rfl

theorem parseClass_bg (s : String) (st : StyleUtility) :
    parseClass ("bg-" ++ s) st =
      (match parseColor s with
       | some col => { st with Background := col }
       | none => st) := rfl

theorem parseClass_border (s : String) (st : StyleUtility) :
    parseClass ("border-" ++ s) st =
      (match parseColor s with
       | some col => { st with Border := { st.Border with Color := col } }
       | none => st) := rfl

theorem parseClass_opacity (s : String) (st : StyleUtility) :
    parseClass ("opacity-" ++ s) st =
      (match parseOpacity s with
       | some o => { st with Opacity := o }
       | none => st) := rfl

/-- The checked parser never reports a panic: every slicing step of
`parseClass` sits under a prefix check whose success bounds the slice
index, so `parseClassChk` agrees with the total `parseClass`. -/
theorem parseClassChk_eq (c : String) (st : StyleUtility) :
    parseClassChk c st = some (parseClass c st) := by
  unfold parseClassChk parseClass
  by_cases h1 : hasPre c "p-" = true
  · rw [if_pos h1, if_pos h1, goSlice_eq (show 2 ≤ c.data.length from hasPre_len h1 rfl)]; rfl
  rw [if_neg h1, if_neg h1]
  by_cases h2 : hasPre c "px-" = true
  · rw [if_pos h2, if_pos h2, goSlice_eq (show 3 ≤ c.data.length from hasPre_len h2 rfl)]; rfl
  rw [if_neg h2, if_neg h2]
  by_cases h3 : hasPre c "py-" = true
  · rw [if_pos h3, if_pos h3, goSlice_eq (show 3 ≤ c.data.length from hasPre_len h3 rfl)]; rfl
  rw [if_neg h3, if_neg h3]
  by_cases h4 : hasPre c "pt-" = true
  · rw [if_pos h4, if_pos h4, goSlice_eq (show 3 ≤ c.data.length from hasPre_len h4 rfl)]; rfl
  rw [if_neg h4, if_neg h4]
  by_cases h5 : hasPre c "pr-" = true
  · rw [if_pos h5, if_pos h5, goSlice_eq (show 3 ≤ c.data.length from hasPre_len h5 rfl)]; rfl
  rw [if_neg h5, if_neg h5]
  by_cases h6 : hasPre c "pb-" = true
  · rw [if_pos h6, if_pos h6, goSlice_eq (show 3 ≤ c.data.length from hasPre_len h6 rfl)]; rfl
  rw [if_neg h6, if_neg h6]
  by_cases h7 : hasPre c "pl-" = true
  · rw [if_pos h7, if_pos h7, goSlice_eq (show 3 ≤ c.data.length from hasPre_len h7 rfl)]; rfl
  rw [if_neg h7, if_neg h7]
  by_cases h8 : hasPre c "m-" = true
  · rw [if_pos h8, if_pos h8, goSlice_eq (show 2 ≤ c.data.length from hasPre_len h8 rfl)]; rfl
  rw [if_neg h8, if_neg h8]
  by_cases h9 : hasPre c "mx-" = true
  · rw [if_pos h9, if_pos h9, goSlice_eq (show 3 ≤ c.data.length from hasPre_len h9 rfl)]; rfl
  rw [if_neg h9, if_neg h9]
  by_cases h10 : hasPre c "my-" = true
  · rw [if_pos h10, if_pos h10, goSlice_eq (show 3 ≤ c.data.length from hasPre_len h10 rfl)]; rfl
  rw [if_neg h10, if_neg h10]
  by_cases h11 : hasPre c "rounded-" = true
  · rw [if_pos h11, if_pos h11, goSlice_eq (show 8 ≤ c.data.length from hasPre_len h11 rfl)]; rfl
  rw [if_neg h11, if_neg h11]
  by_cases h12 : c = "rounded"
  · rw [if_pos h12, if_pos h12]
  rw [if_neg h12, if_neg h12]
  by_cases h13 : hasPre c "bg-" = true
  · rw [if_pos h13, if_pos h13, goSlice_eq (show 3 ≤ c.data.length from hasPre_len h13 rfl)]; rfl
  rw [if_neg h13, if_neg h13]
  by_cases h14 : hasPre c "border-" = true
  · rw [if_pos h14, if_pos h14, goSlice_eq (show 7 ≤ c.data.length from hasPre_len h14 rfl)]; rfl
  rw [if_neg h14, if_neg h14]
  by_cases h15 : c = "border"
  · rw [if_pos h15, if_pos h15]
  rw [if_neg h15, if_neg h15]
  by_cases h16 : hasPre c "opacity-" = true
  · rw [if_pos h16, if_pos h16, goSlice_eq (show 8 ≤ c.data.length from hasPre_len h16 rfl)]; rfl
  rw [if_neg h16, if_neg h16]

/-- The checked parsing loop agrees with the total one on every token
list. -/
theorem parseClassListChk_eq (l : List String) (st : StyleUtility) :
    parseClassListChk l st = some (parseClassList l st) := by
  induction l generalizing st with
  | nil => rfl
  | cons c rest ih =>
    show (match parseClassChk c st with
          | none => none
          | some st2 => parseClassListChk rest st2) = _
    rw [parseClassChk_eq c st]
    exact ih (parseClass c st)

/-! Tokenisation lemmas. -/

theorem splitOnWs_all_ws {l : List Char} (h : ∀ c ∈ l, c.isWhitespace = true) :
    ∀ chunk ∈ splitOnWs l, chunk = [] := by
  induction l with
  | nil =>
    intro chunk hc
    simpa [splitOnWs] using hc
  | cons c rest ih =>
    intro chunk hc
    have hcw : c.isWhitespace = true := h c (List.mem_cons_self c rest)
    simp only [splitOnWs, if_pos hcw, List.mem_cons] at hc
    rcases hc with h1 | h1
    · exact h1
    · exact ih (fun d hd => h d (List.mem_cons_of_mem c hd)) chunk h1

theorem fields_of_ws {s : String} (h : ∀ c ∈ s.data, c.isWhitespace = true) :
    fields s = [] := by
  unfold fields
  have hf : (splitOnWs s.data).filter (fun l => l ≠ []) = [] := by
    rw [List.filter_eq_nil_iff]
    intro a ha
    simp [splitOnWs_all_ws h a ha]
  rw [hf]
  rfl

theorem ClassNames_single (s : String) : ClassNames [s] = s := by
  by_cases h : s = ""
  · subst h; rfl
  · show String.intercalate " " ([s].filter (fun c => c ≠ "")) = s
    rw [show [s].filter (fun c => c ≠ "") = [s] from by simp [h]]
    rfl

/-! Range lemmas for the lookup tables. -/

theorem parseSpacing_nonneg {v : String} {sp : Int} (h : parseSpacing v = some sp) :
    0 ≤ sp := by
  unfold parseSpacing at h
  split at h
  all_goals try exact Option.noConfusion h
  all_goals injection h with h
  all_goals subst h
  all_goals norm_num

theorem parseRadius_nonneg {v : String} {r : Int} (h : parseRadius v = some r) :
    0 ≤ r := by
  unfold parseRadius at h
  split at h
  all_goals try exact Option.noConfusion h
  all_goals injection h with h
  all_goals subst h
  all_goals norm_num

theorem parseOpacity_range {v : String} {o : Rat} (h : parseOpacity v = some o) :
    0 ≤ o ∧ o ≤ 1 := by
  unfold parseOpacity at h
  split at h
  all_goals try exact Option.noConfusion h
  all_goals injection h with h
  all_goals subst h
  all_goals norm_num

/-! Preservation of the data-model ranges. -/

theorem sirPadding {st : StyleUtility} (h : StyleInRange st) {i : Inset}
    (ht : 0 ≤ i.Top) (hr : 0 ≤ i.Right) (hb : 0 ≤ i.Bottom) (hl : 0 ≤ i.Left) :
    StyleInRange { st with Padding := i } := by
  obtain ⟨-, -, -, -, h5, h6, h7, h8, h9, h10, h11, h12⟩ := h
  exact ⟨ht, hr, hb, hl, h5, h6, h7, h8, h9, h10, h11, h12⟩

theorem sirMargin {st : StyleUtility} (h : StyleInRange st) {i : Inset}
    (ht : 0 ≤ i.Top) (hr : 0 ≤ i.Right) (hb : 0 ≤ i.Bottom) (hl : 0 ≤ i.Left) :
    StyleInRange { st with Margin := i } := by
  obtain ⟨h1, h2, h3, h4, -, -, -, -, h9, h10, h11, h12⟩ := h
  exact ⟨h1, h2, h3, h4, ht, hr, hb, hl, h9, h10, h11, h12⟩

theorem sirBackground {st : StyleUtility} (h : StyleInRange st) (b : NRGBA) :
    StyleInRange { st with Background := b } := h

theorem sirBorderColor {st : StyleUtility} (h : StyleInRange st) (col : NRGBA) :
    StyleInRange { st with Border := { st.Border with Color := col } } := h

theorem sirBorderWidth {st : StyleUtility} (h : StyleInRange st) {w : Int}
    (hw : 0 ≤ w) :
    StyleInRange { st with Border := { st.Border with Width := w } } := by
  obtain ⟨h1, h2, h3, h4, h5, h6, h7, h8, h9, -, h11, h12⟩ := h
  exact ⟨h1, h2, h3, h4, h5, h6, h7, h8, h9, hw, h11, h12⟩

theorem sirRadius {st : StyleUtility} (h : StyleInRange st) {r : Int}
    (hr : 0 ≤ r) :
    StyleInRange { st with Radius := r } := by
  obtain ⟨h1, h2, h3, h4, h5, h6, h7, h8, -, h10, h11, h12⟩ := h
  exact ⟨h1, h2, h3, h4, h5, h6, h7, h8, hr, h10, h11, h12⟩

theorem sirOpacity {st : StyleUtility} (h : StyleInRange st) {o : Rat}
    (h0 : 0 ≤ o) (h1 : o ≤ 1) :
    StyleInRange { st with Opacity := o } := by
  obtain ⟨g1, g2, g3, g4, g5, g6, g7, g8, g9, g10, -, -⟩ := h
  exact ⟨g1, g2, g3, g4, g5, g6, g7, g8, g9, g10, h0, h1⟩

/-- A single dispatch step keeps every field inside the ranges of the data
model: the only values ever written come from the lookup tables and the
two literal constants 4 (bare rounded) and 1 (bare border). -/
theorem parseClass_inRange (c : String) (st : StyleUtility) (h : StyleInRange st) :
    StyleInRange (parseClass c st) := by
  obtain ⟨h1, h2, h3, h4, h5, h6, h7, h8, -, -, -, -⟩ := id h
  unfold parseClass
  by_cases g1 : hasPre c "p-" = true
  · rw [if_pos g1]
    cases heq : parseSpacing (strDrop c 2) with
    | none => exact h
    | some sp => exact sirPadding h (parseSpacing_nonneg heq) (parseSpacing_nonneg heq) (parseSpacing_nonneg heq) (parseSpacing_nonneg heq)
  rw [if_neg g1]
  by_cases g2 : hasPre c "px-" = true
  · rw [if_pos g2]
    cases heq : parseSpacing (strDrop c 3) with
    | none => exact h
    | some sp => exact sirPadding h h1 (parseSpacing_nonneg heq) h3 (parseSpacing_nonneg heq)
  rw [if_neg g2]
  by_cases g3 : hasPre c "py-" = true
  · rw [if_pos g3]
    cases heq : parseSpacing (strDrop c 3) with
    | none => exact h
    | some sp => exact sirPadding h (parseSpacing_nonneg heq) h2 (parseSpacing_nonneg heq) h4
  rw [if_neg g3]
  by_cases g4 : hasPre c "pt-" = true
  · rw [if_pos g4]
    cases heq : parseSpacing (strDrop c 3) with
    | none => exact h
    | some sp => exact sirPadding h (parseSpacing_nonneg heq) h2 h3 h4
  rw [if_neg g4]
  by_cases g5 : hasPre c "pr-" = true
  · rw [if_pos g5]
    cases heq : parseSpacing (strDrop c 3) with
    | none => exact h
    | some sp => exact sirPadding h h1 (parseSpacing_nonneg heq) h3 h4
  rw [if_neg g5]
  by_cases g6 : hasPre c "pb-" = true
  · rw [if_pos g6]
    cases heq : parseSpacing (strDrop c 3) with
    | none => exact h
    | some sp => exact sirPadding h h1 h2 (parseSpacing_nonneg heq) h4
  rw [if_neg g6]
  by_cases g7 : hasPre c "pl-" = true
  · rw [if_pos g7]
    cases heq : parseSpacing (strDrop c 3) with
    | none => exact h
    | some sp => exact sirPadding h h1 h2 h3 (parseSpacing_nonneg heq)
  rw [if_neg g7]
  by_cases g8 : hasPre c "m-" = true
  · rw [if_pos g8]
    cases heq : parseSpacing (strDrop c 2) with
    | none => exact h
    | some sp => exact sirMargin h (parseSpacing_nonneg heq) (parseSpacing_nonneg heq) (parseSpacing_nonneg heq) (parseSpacing_nonneg heq)
  rw [if_neg g8]
  by_cases g9 : hasPre c "mx-" = true
  · rw [if_pos g9]
    cases heq : parseSpacing (strDrop c 3) with
    | none => exact h
    | some sp => exact sirMargin h h5 (parseSpacing_nonneg heq) h7 (parseSpacing_nonneg heq)
  rw [if_neg g9]
  by_cases g10 : hasPre c "my-" = true
  · rw [if_pos g10]
    cases heq : parseSpacing (strDrop c 3) with
    | none => exact h
    | some sp => exact sirMargin h (parseSpacing_nonneg heq) h6 (parseSpacing_nonneg heq) h8
  rw [if_neg g10]
  by_cases g11 : hasPre c "rounded-" = true
  · rw [if_pos g11]
    cases heq : parseRadius (strDrop c 8) with
    | none => exact h
    | some r => exact sirRadius h (parseRadius_nonneg heq)
  rw [if_neg g11]
  by_cases gr : c = "rounded"
  · rw [if_pos gr]
    exact sirRadius h (by norm_num)
  rw [if_neg gr]
  by_cases g13 : hasPre c "bg-" = true
  · rw [if_pos g13]
    cases heq : parseColor (strDrop c 3) with
    | none => exact h
    | some col => exact sirBackground h col
  rw [if_neg g13]
  by_cases g14 : hasPre c "border-" = true
  · rw [if_pos g14]
    cases heq : parseColor (strDrop c 7) with
    | none => exact h
    | some col => exact sirBorderColor h col
  rw [if_neg g14]
  by_cases gb : c = "border"
  · rw [if_pos gb]
    exact sirBorderWidth h (by norm_num)
  rw [if_neg gb]
  by_cases g16 : hasPre c "opacity-" = true
  · rw [if_pos g16]
    cases heq : parseOpacity (strDrop c 8) with
    | none => exact h
    | some o => exact sirOpacity h (parseOpacity_range heq).1 (parseOpacity_range heq).2
  rw [if_neg g16]
  exact h

theorem parseClassList_inRange (l : List String) (st : StyleUtility)
    (h : StyleInRange st) : StyleInRange (parseClassList l st) := by
  induction l generalizing st with
  | nil => exact h
  | cons c rest ih => exact ih (parseClass c st) (parseClass_inRange c st h)

theorem initStyle_inRange : StyleInRange initStyle := by
  refine ⟨?_, ?_, ?_, ?_, ?_, ?_, ?_, ?_, ?_, ?_, ?_, ?_⟩ <;> norm_num [initStyle]

/-! The two fields no token rule ever writes. -/

theorem parseClass_untouched_wh (c : String) (st : StyleUtility) :
    (parseClass c st).Width = st.Width ∧ (parseClass c st).Height = st.Height := by
  unfold parseClass
  by_cases g1 : hasPre c "p-" = true
  · rw [if_pos g1]
    cases parseSpacing (strDrop c 2) <;> exact ⟨rfl, rfl⟩
  rw [if_neg g1]
  by_cases g2 : hasPre c "px-" = true
  · rw [if_pos g2]
    cases parseSpacing (strDrop c 3) <;> exact ⟨rfl, rfl⟩
  rw [if_neg g2]
  by_cases g3 : hasPre c "py-" = true
  · rw [if_pos g3]
    cases parseSpacing (strDrop c 3) <;> exact ⟨rfl, rfl⟩
  rw [if_neg g3]
  by_cases g4 : hasPre c "pt-" = true
  · rw [if_pos g4]
    cases parseSpacing (strDrop c 3) <;> exact ⟨rfl, rfl⟩
  rw [if_neg g4]
  by_cases g5 : hasPre c "pr-" = true
  · rw [if_pos g5]
    cases parseSpacing (strDrop c 3) <;> exact ⟨rfl, rfl⟩
  rw [if_neg g5]
  by_cases g6 : hasPre c "pb-" = true
  · rw [if_pos g6]
    cases parseSpacing (strDrop c 3) <;> exact ⟨rfl, rfl⟩
  rw [if_neg g6]
  by_cases g7 : hasPre c "pl-" = true
  · rw [if_pos g7]
    cases parseSpacing (strDrop c 3) <;> exact ⟨rfl, rfl⟩
  rw [if_neg g7]
  by_cases g8 : hasPre c "m-" = true
  · rw [if_pos g8]
    cases parseSpacing (strDrop c 2) <;> exact ⟨rfl, rfl⟩
  rw [if_neg g8]
  by_cases g9 : hasPre c "mx-" = true
  · rw [if_pos g9]
    cases parseSpacing (strDrop c 3) <;> exact ⟨rfl, rfl⟩
  rw [if_neg g9]
  by_cases g10 : hasPre c "my-" = true
  · rw [if_pos g10]
    cases parseSpacing (strDrop c 3) <;> exact ⟨rfl, rfl⟩
  rw [if_neg g10]
  by_cases g11 : hasPre c "rounded-" = true
  · rw [if_pos g11]
    cases parseRadius (strDrop c 8) <;> exact ⟨rfl, rfl⟩
  rw [if_neg g11]
  by_cases gr : c = "rounded"
  · rw [if_pos gr]; exact ⟨rfl, rfl⟩
  rw [if_neg gr]
  by_cases g13 : hasPre c "bg-" = true
  · rw [if_pos g13]
    cases parseColor (strDrop c 3) <;> exact ⟨rfl, rfl⟩
  rw [if_neg g13]
  by_cases g14 : hasPre c "border-" = true
  · rw [if_pos g14]
    cases parseColor (strDrop c 7) <;> exact ⟨rfl, rfl⟩
  rw [if_neg g14]
  by_cases gb : c = "border"
  · rw [if_pos gb]; exact ⟨rfl, rfl⟩
  rw [if_neg gb]
  by_cases g16 : hasPre c "opacity-" = true
  · rw [if_pos g16]
    cases parseOpacity (strDrop c 8) <;> exact ⟨rfl, rfl⟩
  rw [if_neg g16]
  exact ⟨rfl, rfl⟩

theorem parseClassList_wh (l : List String) (st : StyleUtility) :
    (parseClassList l st).Width = st.Width ∧
    (parseClassList l st).Height = st.Height := by
  induction l generalizing st with
  | nil => exact ⟨rfl, rfl⟩
  | cons c rest ih =>
    have hc := parseClass_untouched_wh c st
    have hr := ih (parseClass c st)
    exact ⟨hr.1.trans hc.1, hr.2.trans hc.2⟩

/-! Tokens with a recognized prefix but an unknown suffix are no-ops. -/

theorem parseClass_unknown {t : String} (h : unknownSuffix t) :
    ∀ st : StyleUtility, parseClass t st = st := by
  intro st
  rcases h with ⟨s, rfl, hs⟩ | ⟨s, rfl, hs⟩ | ⟨s, rfl, hs⟩ | ⟨s, rfl, hs⟩ |
    ⟨s, rfl, hs⟩ | ⟨s, rfl, hs⟩ | ⟨s, rfl, hs⟩ | ⟨s, rfl, hs⟩ | ⟨s, rfl, hs⟩ |
    ⟨s, rfl, hs⟩ | ⟨s, rfl, hs⟩ | ⟨s, rfl, hs⟩ | ⟨s, rfl, hs⟩ | ⟨s, rfl, hs⟩
  · rw [parseClass_p, hs]
  · rw [parseClass_px, hs]
  · rw [parseClass_py, hs]
  · rw [parseClass_pt, hs]
  · rw [parseClass_pr, hs]
  · rw [parseClass_pb, hs]
  · rw [parseClass_pl, hs]
  · rw [parseClass_m, hs]
  · rw [parseClass_mx, hs]
  · rw [parseClass_my, hs]
  · rw [parseClass_rounded, hs]
  · rw [parseClass_bg, hs]
  · rw [parseClass_border, hs]
  · rw [parseClass_opacity, hs]

/-! A matched token overwrites its field directly, with no accumulation:
for two tokens of the same family the later application erases the effect
of the earlier one, whatever the intermediate state was. -/

theorem parseClass_overwrite {t1 t2 : String} (hf : sameFamilyKnown t1 t2) :
    ∀ st : StyleUtility, parseClass t2 (parseClass t1 st) = parseClass t2 st := by
  intro st
  rcases hf with ⟨s1, s2, v1, v2, rfl, rfl, e1, e2⟩ | ⟨s1, s2, v1, v2, rfl, rfl, e1, e2⟩ |
    ⟨s1, s2, v1, v2, rfl, rfl, e1, e2⟩ | ⟨s1, s2, v1, v2, rfl, rfl, e1, e2⟩ |
    ⟨s1, s2, v1, v2, rfl, rfl, e1, e2⟩ | ⟨s1, s2, v1, v2, rfl, rfl, e1, e2⟩ |
    ⟨s1, s2, v1, v2, rfl, rfl, e1, e2⟩ | ⟨s1, s2, v1, v2, rfl, rfl, e1, e2⟩ |
    ⟨s1, s2, v1, v2, rfl, rfl, e1, e2⟩ | ⟨s1, s2, v1, v2, rfl, rfl, e1, e2⟩ |
    ⟨s1, s2, v1, v2, rfl, rfl, e1, e2⟩ | ⟨s1, s2, v1, v2, rfl, rfl, e1, e2⟩ |
    ⟨s1, s2, v1, v2, rfl, rfl, e1, e2⟩ | ⟨s1, s2, v1, v2, rfl, rfl, e1, e2⟩
  · simp only [parseClass_p, e1, e2]
  · simp only [parseClass_px, e1, e2]
  · simp only [parseClass_py, e1, e2]
  · simp only [parseClass_pt, e1, e2]
  · simp only [parseClass_pr, e1, e2]
  · simp only [parseClass_pb, e1, e2]
  · simp only [parseClass_pl, e1, e2]
  · simp only [parseClass_m, e1, e2]
  · simp only [parseClass_mx, e1, e2]
  · simp only [parseClass_my, e1, e2]
  · simp only [parseClass_rounded, e1, e2]
  · simp only [parseClass_bg, e1, e2]
  · simp only [parseClass_border, e1, e2]
  · simp only [parseClass_opacity, e1, e2]

/-! The claims. -/

/-- C1: parsing the single string "px-4 py-2 bg-white border border-gray
rounded-lg opacity-90" yields padding left/right 16 and top/bottom 8,
background RGBA(255,255,255,255), border colour RGBA(156,163,175,255) of
width 1, radius 8 and opacity 0.9. -/
theorem C1_concrete_scenario :
    (ParseClasses ["px-4 py-2 bg-white border border-gray rounded-lg opacity-90"]).Padding
        = ⟨8, 16, 8, 16⟩ ∧
    (ParseClasses ["px-4 py-2 bg-white border border-gray rounded-lg opacity-90"]).Background
        = ⟨255, 255, 255, 255⟩ ∧
    (ParseClasses ["px-4 py-2 bg-white border border-gray rounded-lg opacity-90"]).Border.Color
        = ⟨156, 163, 175, 255⟩ ∧
    (ParseClasses ["px-4 py-2 bg-white border border-gray rounded-lg opacity-90"]).Border.Width
        = 1 ∧
    (ParseClasses ["px-4 py-2 bg-white border border-gray rounded-lg opacity-90"]).Radius
        = 8 ∧
    (ParseClasses ["px-4 py-2 bg-white border border-gray rounded-lg opacity-90"]).Opacity
        = 0.9 :=
  ⟨rfl, rfl, rfl, rfl, rfl, rfl⟩

/-- C2: `ParseClasses` is total on every finite list of input strings; the
checked copy of the parser, in which each slicing step of `parseClass`
reports a Go panic as `none`, always returns `some` of the result of the
total parser, because every slice is guarded by a prefix check that keeps
it in bounds. -/
theorem C2_total_no_panic (classes : List String) :
    ParseClassesChk classes = some (ParseClasses classes) :=
  parseClassListChk_eq (fields (ClassNames classes)) initStyle

/-- C3 counterexample: the claim asserts that for every token of the form
"px-" followed by a suffix the generic "p-" prefix test also matches it;
at the token "px-4" the "p-" test in fact fails (the second byte is x, not
a dash), while the px- branch still parses the token. -/
theorem C3_ordering_counterexample :
    hasPre "px-4" "p-" = false ∧
    (parseClass "px-4" initStyle).Padding = ⟨0, 16, 0, 16⟩ :=
  ⟨rfl, rfl⟩

/-- C3 amended: in `parseClass` the generic "p-" case is in fact tried
before the specific "px-" case, but no token of the form "px-" plus suffix
is matched by the generic test (its second character is x, not a dash), so
the relative order of the generic and specific spacing cases is immaterial
and every px- token is handled by the px- branch. -/
theorem C3_ordering_amended (s : String) (st : StyleUtility) :
    hasPre ("px-" ++ s) "p-" = false ∧
    hasPre ("px-" ++ s) "px-" = true ∧
    parseClass ("px-" ++ s) st =
      (match parseSpacing s with
       | some sp => { st with Padding := { st.Padding with Left := sp, Right := sp } }
       | none => st) :=
  ⟨rfl, rfl, parseClass_px s st⟩

/-- C4: in every prefix family, a matched token overwrites its field
directly with its table entry (no accumulation, independent of the prior
state), so of two tokens of the same family with known suffixes the one
processed later determines the final field value — both as a composition
law of the dispatch step and inside the parsing fold; in particular
"bg-red bg-blue" parses to the blue entry and "p-4 p-2" to uniform
padding 8. -/
theorem C4_last_token_wins :
    (∀ t1 t2 : String, sameFamilyKnown t1 t2 →
        ∀ st : StyleUtility, parseClass t2 (parseClass t1 st) = parseClass t2 st) ∧
    (∀ (t1 t2 : String) (l1 l3 : List String) (st : StyleUtility),
        sameFamilyKnown t1 t2 →
        parseClassList (l1 ++ t1 :: t2 :: l3) st = parseClassList (l1 ++ t2 :: l3) st) ∧
    (∀ (st : StyleUtility) (s : String) (col : NRGBA),
        parseColor s = some col → (parseClass ("bg-" ++ s) st).Background = col) ∧
    (ParseClasses ["bg-red bg-blue"]).Background = ⟨59, 130, 246, 255⟩ ∧
    (ParseClasses ["p-4 p-2"]).Padding = UniformInset 8 := by
  refine ⟨fun t1 t2 hf st => parseClass_overwrite hf st, ?_, ?_, rfl, rfl⟩
  · intro t1 t2 l1 l3 st hf
    unfold parseClassList
    simp only [List.foldl_append, List.foldl_cons]
    rw [parseClass_overwrite hf]
  · intro st s col hcol
    rw [parseClass_bg, hcol]

/-- C4 witness: C4 applied to the concrete conflicting pairs "bg-red"
against "bg-blue" (composition law, fold law on a surrounding input, and
the bg- value law on the red entry), each hypothesis discharged by
computation. -/
theorem C4_last_token_wins_witness :
    sameFamilyKnown "bg-red" "bg-blue" ∧
    parseClass "bg-blue" (parseClass "bg-red" initStyle) = parseClass "bg-blue" initStyle ∧
    parseClassList (["p-4"] ++ "bg-red" :: "bg-blue" :: ["rounded"]) initStyle =
      parseClassList (["p-4"] ++ "bg-blue" :: ["rounded"]) initStyle ∧
    (parseClass ("bg-" ++ "red") initStyle).Background = ⟨239, 68, 68, 255⟩ := by
  have hf : sameFamilyKnown "bg-red" "bg-blue" :=
    Or.inr (Or.inr (Or.inr (Or.inr (Or.inr (Or.inr (Or.inr (Or.inr (Or.inr (Or.inr (Or.inr
      (Or.inl ⟨"red", "blue", ⟨239, 68, 68, 255⟩, ⟨59, 130, 246, 255⟩,
        rfl, rfl, rfl, rfl⟩)))))))))))
  exact ⟨hf,
    C4_last_token_wins.1 "bg-red" "bg-blue" hf initStyle,
    C4_last_token_wins.2.1 "bg-red" "bg-blue" ["p-4"] ["rounded"] initStyle hf,
    C4_last_token_wins.2.2.1 initStyle "red" ⟨239, 68, 68, 255⟩ rfl⟩

/-- C5: a token with a recognized prefix but a suffix absent from the
corresponding lookup table contributes nothing: inserting it anywhere in
the token list leaves the parsing result unchanged, and "p-999" leaves the
padding at the zero sentinel. -/
theorem C5_unknown_suffix_noop :
    (∀ (t : String) (l1 l2 : List String) (st : StyleUtility), unknownSuffix t →
        parseClassList (l1 ++ t :: l2) st = parseClassList (l1 ++ l2) st) ∧
    (ParseClasses ["p-999"]).Padding = ⟨0, 0, 0, 0⟩ := by
  refine ⟨?_, rfl⟩
  intro t l1 l2 st h
  unfold parseClassList
  simp only [List.foldl_append, List.foldl_cons]
  rw [parseClass_unknown h]

/-- C5 witness: inserting "p-999" between two recognized tokens changes
nothing. -/
theorem C5_unknown_suffix_noop_witness :
    unknownSuffix "p-999" ∧
    parseClassList (["bg-red"] ++ "p-999" :: ["rounded"]) initStyle =
      parseClassList (["bg-red"] ++ ["rounded"]) initStyle :=
  ⟨Or.inl ⟨"999", rfl, rfl⟩,
   C5_unknown_suffix_noop.1 "p-999" ["bg-red"] ["rounded"] initStyle
     (Or.inl ⟨"999", rfl, rfl⟩)⟩

/-- C6: bare "rounded" yields radius 4, "rounded-lg" radius 8, the unknown
suffix "rounded-xyz" leaves radius at the zero sentinel; the bare keywords
are not matched by their prefixed cases (so the equality cases after them
apply), and bare "border" sets border width 1 with no colour. -/
theorem C6_bare_vs_parameterized :
    (ParseClasses ["rounded"]).Radius = 4 ∧
    (ParseClasses ["rounded-lg"]).Radius = 8 ∧
    (ParseClasses ["rounded-xyz"]).Radius = 0 ∧
    hasPre "rounded" "rounded-" = false ∧
    hasPre "border" "border-" = false ∧
    (ParseClasses ["border"]).Border = ⟨⟨0, 0, 0, 0⟩, 1⟩ :=
  ⟨rfl, rfl, rfl, rfl, rfl, rfl⟩

/-- C7: with no tokens at all (no arguments, a single empty string, or a
string of only whitespace) the parser returns the initial accumulator:
opacity 1 and every other field at its zero sentinel. -/
theorem C7_default_record :
    ParseClasses [] = ⟨⟨0, 0, 0, 0⟩, ⟨0, 0, 0, 0⟩, ⟨0, 0, 0, 0⟩, ⟨⟨0, 0, 0, 0⟩, 0⟩, 0, 0, 0, 1⟩ ∧
    ParseClasses [""] = ⟨⟨0, 0, 0, 0⟩, ⟨0, 0, 0, 0⟩, ⟨0, 0, 0, 0⟩, ⟨⟨0, 0, 0, 0⟩, 0⟩, 0, 0, 0, 1⟩ ∧
    ∀ s : String, (∀ c ∈ s.data, c.isWhitespace = true) →
      ParseClasses [s] =
        ⟨⟨0, 0, 0, 0⟩, ⟨0, 0, 0, 0⟩, ⟨0, 0, 0, 0⟩, ⟨⟨0, 0, 0, 0⟩, 0⟩, 0, 0, 0, 1⟩ := by
  refine ⟨rfl, rfl, ?_⟩
  intro s hws
  unfold ParseClasses
  rw [ClassNames_single, fields_of_ws hws]
  rfl

/-- C7 witness: the whitespace part of C7 applied to a concrete blank
string. -/
theorem C7_default_record_witness :
    (∀ c ∈ (" \t " : String).data, c.isWhitespace = true) ∧
    ParseClasses [" \t "] =
      ⟨⟨0, 0, 0, 0⟩, ⟨0, 0, 0, 0⟩, ⟨0, 0, 0, 0⟩, ⟨⟨0, 0, 0, 0⟩, 0⟩, 0, 0, 0, 1⟩ :=
  ⟨by decide, C7_default_record.2.2 " \t " (by decide)⟩

/-- C8: for every input list the parsed record satisfies the data-model
ranges: all eight inset components, the radius and the border width are
non-negative and the opacity lies in the unit interval. -/
theorem C8_field_ranges (classes : List String) :
    StyleInRange (ParseClasses classes) :=
  parseClassList_inRange (fields (ClassNames classes)) initStyle initStyle_inRange

/-- C9: "bg-transparent" parses to exactly the same record as the empty
string, because the transparent table entry coincides with the zero-alpha
unset sentinel; in particular its background alpha is 0, so alpha-testing
consumers cannot observe the token. -/
theorem C9_bg_transparent_unobservable :
    ParseClasses ["bg-transparent"] = ParseClasses [""] ∧
    (ParseClasses ["bg-transparent"]).Background.A = 0 :=
  ⟨rfl, rfl⟩

/-- C10: no dispatch branch of `parseClass` ever writes the Width or
Height fields, so on every input they remain at their zero value. -/
theorem C10_width_height_never_written (classes : List String) :
    (ParseClasses classes).Width = 0 ∧ (ParseClasses classes).Height = 0 :=
  parseClassList_wh (fields (ClassNames classes)) initStyle

end GioShadcn
